import Mathlib

/-
Verification development for the utility-class CSS generation engine
described by this repository's specification. The repository itself ships
only the declarative configuration (src/tailwind.config.js) and content
files; the engine (scanner, resolver, emitter, plugin host, token
registry) is specified but not present under src/, so those components
are modelled from the specification text, while the configuration object
is embedded directly from src/tailwind.config.js.
-/

namespace TwEngine

/-- A single CSS property/value declaration. -/
structure Declaration where
  prop : String
  value : String
deriving DecidableEq, Repr

/-- Ordering bucket controlling which rules win under equal specificity. -/
inductive Layer where
  | base
  | components
  | utilities
deriving DecidableEq, BEq, Repr

/-- Modelled from the spec: a resolved rule is a selector plus ordered
declarations, wrapper at-rule contexts (outermost first), and a layer tag. -/
structure ResolvedRule where
  selector : String
  decls : List Declaration
  wrappers : List String
  layer : Layer
deriving DecidableEq, Repr

/-- Modelled from the spec: the non-fatal event log of the Plugin Host;
a later registration for an already-registered utility name is recorded
as an override event naming the plugin and the utility name. -/
inductive HostEvent where
  | overrideEvent (plugin : String) (util : String)
deriving DecidableEq, Repr

/-- Modelled from the spec: a variant either wraps the rule in a media
condition looked up from the token registry, or suffixes the selector. -/
inductive VariantDef where
  | media (cat : String) (key : String)
  | pseudo (suffix : String)
deriving DecidableEq, Repr

/-- A token registry: category and key to resolved literal value. -/
abbrev Registry := String → String → Option String

/-- Modelled from the spec: a utility definition carries the scale
category used for named-value lookup (none for bare utilities) and a
generator from (registry handle, resolved value, important marker) to
declarations, failing closed with none. -/
structure UtilityDef where
  category : Option String
  gen : Registry → Option String → Bool → Option (List Declaration)

/-- Theme overrides: direct per-category tables plus the reserved
extend tables that merge over (never replace) the defaults. -/
structure Theme where
  tables : List (String × List (String × String))
  extend : List (String × List (String × String))

/-- Modelled from the spec: a plugin registers utility generators and
variants during the single initialization pass. -/
structure Plugin where
  name : String
  utils : List (String × UtilityDef)
  vars : List (String × VariantDef)

/-- Modelled from the spec: the Plugin Host state after initialization. -/
structure Host where
  utils : List (String × UtilityDef)
  vars : List (String × VariantDef)
  events : List HostEvent

/-- The declarative configuration shape: content globs, theme, plugins. -/
structure Config where
  content : List String
  theme : Theme
  plugins : List Plugin

/-- A source file in the scanned set; content is none when unreadable. -/
structure SourceFile where
  name : String
  content : Option String

/-- The only two error kinds surfaced to the caller of generate. -/
inductive GenError where
  | configError (msg : String)
  | scanError (file : String)
deriving DecidableEq, Repr

/-! ## Default token scale and theme merge -/

/-- Default spacing scale (excerpt of the standard scale). -/
def defaultSpacing : List (String × String) :=
  [("0", "0px"), ("1", "0.25rem"), ("2", "0.5rem"), ("4", "1rem"), ("8", "2rem")]

/-- Default margin scale: spacing plus the auto keyword. -/
def defaultMargin : List (String × String) :=
  ("auto", "auto") :: defaultSpacing

/-- Default responsive breakpoints. -/
def defaultScreens : List (String × String) :=
  [("sm", "640px"), ("md", "768px"), ("lg", "1024px")]

/-- Default width scale. -/
def defaultWidth : List (String × String) :=
  [("full", "100%"), ("auto", "auto")]

/-- Default container options: not centered unless configured. -/
def defaultContainerOpts : List (String × String) :=
  [("center", "false")]

/-- The immutable default token tables, by category then key. -/
def defaultTheme : List (String × List (String × String)) :=
  [("spacing", defaultSpacing), ("margin", defaultMargin),
   ("screens", defaultScreens), ("width", defaultWidth),
   ("container", defaultContainerOpts)]

/-- Look up a (category, key) pair in a nested table. -/
def themeLookup (t : List (String × List (String × String)))
    (cat key : String) : Option String :=
  match List.lookup cat t with
  | none => none
  | some table => List.lookup key table

/-- Modelled from the spec: the Token Registry resolve function is the
deep merge, per category and key, of the default scale with the user
theme; direct user values take precedence, then extend values, then the
defaults (so extend keeps and merges default entries). -/
def themeResolve (th : Theme) (cat key : String) : Option String :=
  match themeLookup th.tables cat key with
  | some v => some v
  | none =>
    match themeLookup th.extend cat key with
    | some v => some v
    | none => themeLookup defaultTheme cat key

/-! ## Plugin host -/

/-- Modelled from the spec: register a utility generator; a name already
present is overridden (last-wins, newest entry shadows) and a non-fatal
override event is recorded. -/
def registerUtility (pname : String) (h : Host) (entry : String × UtilityDef) : Host :=
  let ev :=
    if (h.utils.map Prod.fst).contains entry.1 then
      h.events ++ [HostEvent.overrideEvent pname entry.1]
    else h.events
  { h with utils := entry :: h.utils, events := ev }

/-- Modelled from the spec: register a variant wrapper (last-wins). -/
def registerVariant (h : Host) (entry : String × VariantDef) : Host :=
  { h with vars := entry :: h.vars }

/-- Apply one plugin's registrations in order. -/
def applyPlugin (h : Host) (p : Plugin) : Host :=
  p.vars.foldl registerVariant (p.utils.foldl (registerUtility p.name) h)

/-- The empty host, before any registration. -/
def emptyHost : Host := { utils := [], vars := [], events := [] }

/-- The utility definition looked up and invoked by the Style Resolver
for a utility name: the most recent registration wins. -/
def generatorFor (h : Host) (name : String) : Option UtilityDef :=
  List.lookup name h.utils

/-- The variant definition the Style Resolver consults for a prefix. -/
def variantFor (h : Host) (name : String) : Option VariantDef :=
  List.lookup name h.vars

/-- Append the important marker to declaration values when requested. -/
def withImportant (imp : Bool) (ds : List Declaration) : List Declaration :=
  if imp then ds.map (fun d => { d with value := d.value ++ " !important" }) else ds

/-- Modelled from the spec: the container utility; bare, and centered
(auto horizontal margins) exactly when the container.center token is true. -/
def containerDef : UtilityDef :=
  { category := none,
    gen := fun reg v imp =>
      match v with
      | some _ => none
      | none =>
        if reg "container" "center" = some "true" then
          some (withImportant imp
            [⟨"width", "100%"⟩, ⟨"margin-left", "auto"⟩, ⟨"margin-right", "auto"⟩])
        else
          some (withImportant imp [⟨"width", "100%"⟩]) }

/-- Modelled from the spec: the padding utility over the spacing scale. -/
def pDef : UtilityDef :=
  { category := some "spacing",
    gen := fun _ v imp => v.map (fun val => withImportant imp [⟨"padding", val⟩]) }

/-- Modelled from the spec: horizontal margin over the margin scale. -/
def mxDef : UtilityDef :=
  { category := some "margin",
    gen := fun _ v imp =>
      v.map (fun val => withImportant imp [⟨"margin-left", val⟩, ⟨"margin-right", val⟩]) }

/-- Modelled from the spec: the width utility over the width scale. -/
def wDef : UtilityDef :=
  { category := some "width",
    gen := fun _ v imp => v.map (fun val => withImportant imp [⟨"width", val⟩]) }

/-- Modelled from the spec: the engine's own core registrations, applied
before the configured plugin list. -/
def corePlugin : Plugin :=
  { name := "core",
    utils := [("container", containerDef), ("p", pDef), ("mx", mxDef), ("w", wDef)],
    vars := [("sm", .media "screens" "sm"), ("md", .media "screens" "md"),
             ("lg", .media "screens" "lg"), ("hover", .pseudo ":hover")] }

/-- Modelled from the spec: initialize the host by applying the core
registrations and then the configured plugins in list order. -/
def initHost (plugins : List Plugin) : Host :=
  plugins.foldl applyPlugin (applyPlugin emptyHost corePlugin)

/-! ## Class candidate scanner -/

/-- Modelled from the spec: the fixed class-safe character table used by
the tokenizer (alphanumerics plus variant separators, arbitrary-value
brackets, negative-value and fraction markers). -/
def isClassSafe (c : Char) : Bool :=
  c.isAlpha || c.isDigit || c = '-' || c = ':' || c = '[' || c = ']' ||
  c = '.' || c = '/' || c = '_' || c = '#' || c = '%' || c = '!'

/-- Split a character stream into maximal runs of class-safe characters;
the accumulator holds the current run reversed. -/
def tokensAux : List Char → List Char → List (List Char)
  | [], acc => if acc.isEmpty then [] else [acc.reverse]
  | c :: cs, acc =>
    if isClassSafe c then tokensAux cs (c :: acc)
    else if acc.isEmpty then tokensAux cs [] else acc.reverse :: tokensAux cs []

/-- Modelled from the spec: raw candidate tokens of one source text, in
order of occurrence. -/
def rawTokens (text : String) : List String :=
  (tokensAux text.data []).map String.mk

/-- Bracket balance check with a running open-bracket depth. -/
def bracketBal : List Char → Nat → Bool
  | [], d => d = 0
  | c :: cs, d =>
    if c = '[' then bracketBal cs (d + 1)
    else if c = ']' then
      match d with
      | 0 => false
      | d' + 1 => bracketBal cs d'
    else bracketBal cs d

/-- Modelled from the spec: arbitrary-value brackets of a token must be
balanced; an unbalanced token is rejected by the scanner. -/
def balancedBrackets (s : String) : Bool :=
  bracketBal s.data 0

/-- Modelled from the spec: scanning one file keeps exactly the raw
tokens whose brackets are balanced; scanning text never fails. -/
def scanFile (text : String) : List String :=
  (rawTokens text).filter balancedBrackets

/-- Keep the first occurrence of each string, dropping later duplicates. -/
def dedupFirstAux (seen : List String) : List String → List String
  | [] => []
  | x :: xs =>
    if seen.contains x then dedupFirstAux seen xs
    else x :: dedupFirstAux (x :: seen) xs

/-- Deduplicate a candidate list, first occurrence order. -/
def dedupFirst (l : List String) : List String :=
  dedupFirstAux [] l

/-- Modelled from the spec: scan the source texts in canonical file list
order and collapse duplicates to their first occurrence. -/
def scan (texts : List String) : List String :=
  dedupFirst (texts.flatMap scanFile)

/-! ## Style resolver -/

/-- Split a character stream on a separator character. -/
def splitAux (sep : Char) : List Char → List Char → List (List Char)
  | [], acc => [acc.reverse]
  | c :: cs, acc =>
    if c = sep then acc.reverse :: splitAux sep cs []
    else splitAux sep cs (c :: acc)

/-- The colon-separated components of a candidate, variants then base. -/
def candParts (cand : String) : List String :=
  (splitAux ':' cand.data []).map String.mk

/-- The ordered variant-name list of a candidate (outermost first). -/
def variantNames (cand : String) : List String :=
  (candParts cand).dropLast

/-- The base utility token of a candidate, after the variant parts. -/
def baseToken (cand : String) : Option String :=
  (candParts cand).getLast?

/-- Map a partial function across a list, failing closed if any element
fails (the Option-monad traversal, written out). -/
def optionMapAll (f : α → Option β) : List α → Option (List β)
  | [] => some []
  | a :: l =>
    match f a, optionMapAll f l with
    | some b, some bs => some (b :: bs)
    | _, _ => none

/-- Strip a trailing important marker from a base token. -/
def stripImportant (cs : List Char) : List Char × Bool :=
  match cs.getLast? with
  | some '!' => (cs.dropLast, true)
  | _ => (cs, false)

/-- Split at the first dash into utility name and value part. -/
def splitFirstDash : List Char → Option (List Char × List Char)
  | [] => none
  | '-' :: rest => some ([], rest)
  | c :: rest => (splitFirstDash rest).map (fun pr => (c :: pr.1, pr.2))

/-- Modelled from the spec: recognize a bracketed arbitrary value; it is
validated only for syntactic well-formedness (balanced brackets). -/
def arbValue (cs : List Char) : Option String :=
  match cs with
  | '[' :: rest =>
    if bracketBal cs 0 && (rest.getLast? = some ']') then
      some (String.mk rest.dropLast)
    else none
  | _ => none

/-- Modelled from the spec: resolve the base token of a candidate to its
generated declarations: whole-token bare utilities first, then a
name-value split with arbitrary-value bypass or token-registry lookup;
every failure returns none (the candidate is dropped). -/
def resolveBase (host : Host) (reg : Registry) (baseCs : List Char) :
    Option (List Declaration) :=
  let (core, imp) := stripImportant baseCs
  match generatorFor host (String.mk core) with
  | some u => u.gen reg none imp
  | none =>
    match splitFirstDash core with
    | none => none
    | some (nameCs, restCs) =>
      match generatorFor host (String.mk nameCs) with
      | none => none
      | some u =>
        match arbValue restCs with
        | some v => u.gen reg (some v) imp
        | none =>
          match u.category with
          | none => none
          | some cat =>
            match reg cat (String.mk restCs) with
            | none => none
            | some v => u.gen reg (some v) imp

/-- Escape a candidate character for use inside a class selector. -/
def escapeChar (c : Char) : List Char :=
  if c.isAlpha || c.isDigit || c = '-' || c = '_' then [c] else ['\\', c]

/-- The class selector of a candidate, with special characters escaped. -/
def cssSelector (cand : String) : String :=
  String.mk ('.' :: cand.data.flatMap escapeChar)

/-- Apply one variant wrapper to a rule; a media variant whose
breakpoint token is missing fails closed. -/
def variantWrap (reg : Registry) (v : VariantDef) (r : ResolvedRule) :
    Option ResolvedRule :=
  match v with
  | .media cat key =>
    (reg cat key).map (fun val =>
      { r with wrappers := ("@media (min-width: " ++ val ++ ")") :: r.wrappers })
  | .pseudo suf => some { r with selector := r.selector ++ suf }

/-- Apply a variant list outer-to-inner: the innermost (last listed)
variant is applied first, the outermost last. -/
def applyVariantList (reg : Registry) : List VariantDef → ResolvedRule → Option ResolvedRule
  | [], r => some r
  | v :: vs, r => (applyVariantList reg vs r).bind (variantWrap reg v)

/-- The unvarianted utility rule built for a candidate's declarations. -/
def mkUtilityRule (cand : String) (decls : List Declaration) : ResolvedRule :=
  { selector := cssSelector cand, decls := decls, wrappers := [], layer := .utilities }

/-- Modelled from the spec: the Style Resolver; splits off the variant
list, fails closed on any unknown variant name, resolves the base token,
and wraps the result with the variant wrappers. -/
def resolveCandidate (host : Host) (reg : Registry) (cand : String) :
    Option ResolvedRule :=
  match baseToken cand with
  | none => none
  | some base =>
    match optionMapAll (variantFor host) (variantNames cand) with
    | none => none
    | some vdefs =>
      match resolveBase host reg base.data with
      | none => none
      | some decls => applyVariantList reg vdefs (mkUtilityRule cand decls)

/-! ## Stylesheet emitter -/

/-- Resolve all candidates in discovery order, dropping rejections. -/
def resolveAll (host : Host) (reg : Registry) (cands : List String) :
    List ResolvedRule :=
  cands.filterMap (resolveCandidate host reg)

/-- The fixed layer emission order. -/
def layerOrder : List Layer := [.base, .components, .utilities]

/-- The rules of one layer, in discovery order. -/
def rulesInLayer (l : Layer) (rules : List ResolvedRule) : List ResolvedRule :=
  rules.filter (fun r => r.layer == l)

/-- The last rule produced for a selector (later-discovered wins). -/
def lastWithSel (rules : List ResolvedRule) (s : String) : Option ResolvedRule :=
  rules.foldl (fun acc r => if r.selector == s then some r else acc) none

/-- Modelled from the spec: within a layer, one rule per selector at its
first-discovered position, with the later-discovered content winning on
a collision. -/
def collapse (rules : List ResolvedRule) : List ResolvedRule :=
  (dedupFirst (rules.map (fun r => r.selector))).filterMap (lastWithSel rules)

/-- Concatenate a list of strings. -/
def joinAll (l : List String) : String :=
  l.foldl (fun a b => a ++ b) ""

/-- Serialize one declaration. -/
def serializeDecl (d : Declaration) : String :=
  d.prop ++ ":" ++ d.value ++ ";"

/-- Serialize one rule, applying wrappers outermost first. -/
def serializeRule (r : ResolvedRule) : String :=
  let core := r.selector ++ "\x7b" ++ joinAll (r.decls.map serializeDecl) ++ "\x7d"
  r.wrappers.foldr (fun w inner => w ++ "\x7b" ++ inner ++ "\x7d") core

/-- Modelled from the spec: the Stylesheet Emitter; groups rules by
layer in fixed order, collapses per-selector, and serializes. -/
def emit (rules : List ResolvedRule) : String :=
  joinAll (layerOrder.map (fun l =>
    joinAll ((collapse (rulesInLayer l rules)).map (fun r => serializeRule r ++ "\n"))))

/-! ## Generation entry point -/

/-- Modelled from the spec: configuration validation; a malformed
configuration (empty content set or empty glob pattern) is a fatal
ConfigError that aborts the run before scanning begins. -/
def validateConfig (cfg : Config) : Except GenError Unit :=
  if cfg.content.isEmpty then .error (.configError "content must be non-empty")
  else if cfg.content.any (fun g => g.data.isEmpty) then
    .error (.configError "empty content glob")
  else .ok ()

/-- Read every file of the source set; an unreadable file is a fatal
ScanError for the whole run. -/
def readAll : List SourceFile → Except GenError (List String)
  | [] => .ok []
  | f :: fs =>
    match f.content with
    | none => .error (.scanError f.name)
    | some t => (readAll fs).map (fun ts => t :: ts)

/-- The host built from the configured plugin list. -/
def buildHost (cfg : Config) : Host :=
  initHost cfg.plugins

/-- The registry built from the configured theme merged over defaults. -/
def buildRegistry (cfg : Config) : Registry :=
  themeResolve cfg.theme

/-- Resolve-and-emit for an already-scanned candidate list. -/
def pipeline (cfg : Config) (cands : List String) : String :=
  emit (resolveAll (buildHost cfg) (buildRegistry cfg) cands)

/-- Modelled from the spec: generate(config, sourceFileSet) returns the
complete stylesheet text or fails with ConfigError or ScanError; nothing
partial is ever returned. -/
def generate (cfg : Config) (files : List SourceFile) : Except GenError String :=
  match validateConfig cfg with
  | .error e => .error e
  | .ok _ =>
    match readAll files with
    | .error e => .error e
    | .ok texts => .ok (pipeline cfg (scan texts))

/-- The resolved rule list of a successful run (empty on failure);
exposes the pre-serialization rules for the end-to-end property. -/
def generatedRules (cfg : Config) (files : List SourceFile) : List ResolvedRule :=
  match readAll files with
  | .error _ => []
  | .ok texts => resolveAll (buildHost cfg) (buildRegistry cfg) (scan texts)

/-! ## Scan-order model -/

/-- Per-file scan results tagged with the canonical file index, listed
in an arbitrary scan completion order. -/
def scanPieces (texts : List String) (order : List Nat) : List (Nat × List String) :=
  order.map (fun i => (i, scanFile (texts.getD i "")))

/-- Reassemble tagged scan results by canonical file index. -/
def assembleScan (texts : List String) (order : List Nat) : List String :=
  (List.range texts.length).flatMap (fun i => ((scanPieces texts order).lookup i).getD [])

/-- Modelled from the spec: scanning with an explicit completion order;
discovery order is taken from the canonical file list, not the order in
which file scans complete. -/
def scanOrdered (texts : List String) (order : List Nat) : List String :=
  dedupFirst (assembleScan texts order)

/-- Generate with the scan completion order made explicit. -/
def generateScanned (cfg : Config) (files : List SourceFile) (order : List Nat) :
    Except GenError String :=
  match validateConfig cfg with
  | .error e => .error e
  | .ok _ =>
    match readAll files with
    | .error e => .error e
    | .ok texts => .ok (pipeline cfg (scanOrdered texts order))

/-! ## The repository configuration (src/tailwind.config.js) -/

/-- Modelled from the spec: the @tailwindcss/forms plugin referenced by
the repository configuration (the package itself is external to the
repository); it registers form-control utilities and takes the
selector-generation strategy option. -/
def formsPlugin (strategy : String) : Plugin :=
  { name := "@tailwindcss/forms",
    utils :=
      [("form-input",
        { category := none,
          gen := fun _ v imp =>
            match v with
            | some _ => none
            | none =>
              some (withImportant imp
                [⟨"appearance", "none"⟩, ⟨"border-width", "1px"⟩]) }),
       ("form-select",
        { category := none,
          gen := fun _ v imp =>
            match v with
            | some _ => none
            | none =>
              some (withImportant imp
                [⟨"appearance", "none"⟩,
                 ⟨"print-color-adjust",
                  if strategy = "class" then "exact" else "economy"⟩]) })],
    vars := [] }

/-- The theme of src/tailwind.config.js: container.center set to true,
given directly (not under extend). -/
def repoTheme : Theme :=
  { tables := [("container", [("center", "true")])], extend := [] }

/-- The configuration object exported by src/tailwind.config.js. -/
def repoConfig : Config :=
  { content := ["./layouts/**/*.\x7bhtml,js\x7d", "./content/**/*.md"],
    theme := repoTheme,
    plugins := [formsPlugin "class"] }

/-! ## Helper lemmas -/

/-- The fail-closed traversal returns none as soon as any element fails. -/
theorem optionMapAll_eq_none {α β : Type} (f : α → Option β) (l : List α) (a : α)
    (hmem : a ∈ l) (hf : f a = none) : optionMapAll f l = none := by
  induction l with
  | nil => cases hmem
  | cons x xs ih =>
    cases hfx : f x with
    | none => simp [optionMapAll, hfx]
    | some b =>
      have hx : a ∈ xs := by
        rcases List.mem_cons.mp hmem with h | h
        · subst h; rw [hf] at hfx; cases hfx
        · exact h
      simp [optionMapAll, hfx, ih hx]

/-- Reading the source set fails only with a ScanError. -/
theorem readAll_only_scan_errors (files : List SourceFile) (e : GenError)
    (h : readAll files = .error e) : ∃ f, e = GenError.scanError f := by
  induction files with
  | nil => simp [readAll] at h
  | cons f fs ih =>
    unfold readAll at h
    cases hc : f.content with
    | none =>
      rw [hc] at h
      exact ⟨f.name, (Except.error.inj h).symm⟩
    | some t =>
      rw [hc] at h
      cases hr : readAll fs with
      | error e' =>
        rw [hr] at h
        simp [Except.map] at h
        exact ih (by rw [hr, h])
      | ok ts =>
        rw [hr] at h
        simp [Except.map] at h

/-- Reading the source set preserves the file count. -/
theorem readAll_length (files : List SourceFile) (texts : List String)
    (h : readAll files = .ok texts) : texts.length = files.length := by
  induction files generalizing texts with
  | nil =>
    simp [readAll] at h
    simp [h]
  | cons f fs ih =>
    unfold readAll at h
    cases hc : f.content with
    | none => rw [hc] at h; cases h
    | some t =>
      rw [hc] at h
      cases hr : readAll fs with
      | error e => rw [hr] at h; simp [Except.map] at h
      | ok ts =>
        rw [hr] at h
        simp [Except.map] at h
        subst h
        rw [List.length_cons, List.length_cons, ih ts hr]

/-- Looking up a canonical index among tagged scan pieces ignores the
completion order. -/
theorem lookup_scanPieces (texts : List String) (order : List Nat) (i : Nat)
    (h : i ∈ order) :
    (scanPieces texts order).lookup i = some (scanFile (texts.getD i "")) := by
  induction order with
  | nil => cases h
  | cons j rest ih =>
    simp only [scanPieces, List.map_cons, List.lookup]
    by_cases hij : i = j
    · subst hij; simp
    · have hb : (i == j) = false := by simp [hij]
      rw [hb]
      have hx : i ∈ rest := by
        rcases List.mem_cons.mp h with h' | h'
        · exact absurd h' hij
        · exact h'
      exact ih hx

/-- Pointwise-equal functions flat-map equally. -/
theorem flatMap_congr_mem {α β : Type} (l : List α) (f g : α → List β)
    (h : ∀ a ∈ l, f a = g a) : l.flatMap f = l.flatMap g := by
  induction l with
  | nil => rfl
  | cons x xs ih =>
    simp only [List.flatMap_cons]
    rw [h x (List.mem_cons_self x xs), ih (fun a ha => h a (List.mem_cons_of_mem x ha))]

/-- Assembling tagged pieces in canonical order is the canonical scan,
whenever every canonical index was scanned. -/
theorem assembleScan_eq (texts : List String) (order : List Nat)
    (h : ∀ i, i ∈ List.range texts.length → i ∈ order) :
    assembleScan texts order =
      (List.range texts.length).flatMap (fun i => scanFile (texts.getD i "")) := by
  unfold assembleScan
  apply flatMap_congr_mem
  intro i hi
  rw [lookup_scanPieces texts order i (h i hi)]
  rfl

/-- Flat-mapping over successor-shifted indices drops the list head. -/
theorem flatMap_map_succ {β : Type} (l : List Nat) (f : Nat → List β) :
    (l.map Nat.succ).flatMap f = l.flatMap (fun i => f (i + 1)) := by
  induction l with
  | nil => rfl
  | cons x xs ih => simp only [List.map_cons, List.flatMap_cons, ih]

/-- Indexing the canonical file list by its range recovers the list. -/
theorem range_flatMap_getD (texts : List String) :
    (List.range texts.length).flatMap (fun i => scanFile (texts.getD i "")) =
      texts.flatMap scanFile := by
  induction texts with
  | nil => rfl
  | cons t ts ih =>
    rw [List.length_cons, List.range_succ_eq_map, List.flatMap_cons, flatMap_map_succ]
    show scanFile t ++ (List.range ts.length).flatMap (fun i => scanFile (ts.getD i "")) = _
    rw [ih, List.flatMap_cons]

/-- Scanning with any complete completion order equals the canonical scan. -/
theorem scanOrdered_eq_scan (texts : List String) (order : List Nat)
    (hperm : order.Perm (List.range texts.length)) :
    scanOrdered texts order = scan texts := by
  unfold scanOrdered scan
  rw [assembleScan_eq texts order (fun i hi => hperm.mem_iff.mpr hi), range_flatMap_getD]

/-! ## Claim theorems -/

/-- The end-to-end source file containing the literal class attribute. -/
def c1File : SourceFile :=
  { name := "index.html", content := some "class=\"container mx-auto p-4 md:p-8\"" }

/-- C1: with the repository configuration (container.center true) merged
over the defaults, generating from content containing the literal string
class="container mx-auto p-4 md:p-8" yields rules for .container (with
auto horizontal margins from the centered option), .mx-auto, .p-4, and a
breakpoint-wrapped rule for .md\:p-8, and generate succeeds with the
emitted stylesheet of exactly these rules. -/
theorem c1_end_to_end :
    (∃ r ∈ generatedRules repoConfig [c1File], r.selector = ".container" ∧
      Declaration.mk "margin-left" "auto" ∈ r.decls ∧
      Declaration.mk "margin-right" "auto" ∈ r.decls) ∧
    (∃ r ∈ generatedRules repoConfig [c1File], r.selector = ".mx-auto") ∧
    (∃ r ∈ generatedRules repoConfig [c1File], r.selector = ".p-4") ∧
    (∃ r ∈ generatedRules repoConfig [c1File], r.selector = ".md\\:p-8" ∧
      r.wrappers = ["@media (min-width: 768px)"]) ∧
    generate repoConfig [c1File] = .ok (emit (generatedRules repoConfig [c1File])) := by
  refine ⟨by decide, by decide, by decide, by decide, rfl⟩

/-- C2: generate is a deterministic pure function of the configuration
and source set; two runs on unchanged inputs return byte-identical
stylesheet text. -/
theorem c2_deterministic (cfg : Config) (files : List SourceFile) (out1 out2 : String)
    (h1 : generate cfg files = .ok out1) (h2 : generate cfg files = .ok out2) :
    out1 = out2 :=
  Except.ok.inj (h1.symm.trans h2)

/-- Witness for C2 at the repository configuration and an empty source
set: both runs return the empty stylesheet. -/
theorem c2_deterministic_witness :
    generate repoConfig [] = Except.ok "" ∧ ("" : String) = "" :=
  ⟨rfl, c2_deterministic repoConfig [] "" "" rfl rfl⟩

/-- C3: for every permutation of the scan completion order over the
source files, generate produces the same stylesheet, because candidate
discovery order follows the canonical file list order. -/
theorem c3_scan_order_independent (cfg : Config) (files : List SourceFile)
    (order : List Nat) (hperm : order.Perm (List.range files.length)) :
    generateScanned cfg files order = generate cfg files := by
  unfold generateScanned generate
  cases hv : validateConfig cfg with
  | error e => rfl
  | ok u =>
    cases hr : readAll files with
    | error e => rfl
    | ok texts =>
      have hlen := readAll_length files texts hr
      show Except.ok (pipeline cfg (scanOrdered texts order)) =
        Except.ok (pipeline cfg (scan texts))
      rw [scanOrdered_eq_scan texts order (by rw [hlen]; exact hperm)]

/-- Witness for C3: two concrete files scanned in reversed completion
order give the same stylesheet as the canonical run. -/
theorem c3_scan_order_independent_witness :
    List.Perm [1, 0] (List.range
      ([{ name := "a.html", content := some "p-4 mx-auto" },
        { name := "b.html", content := some "mx-auto w-full" }] : List SourceFile).length) ∧
    generateScanned repoConfig
      [{ name := "a.html", content := some "p-4 mx-auto" },
       { name := "b.html", content := some "mx-auto w-full" }] [1, 0] =
    generate repoConfig
      [{ name := "a.html", content := some "p-4 mx-auto" },
       { name := "b.html", content := some "mx-auto w-full" }] :=
  ⟨by decide,
   c3_scan_order_independent repoConfig
     [{ name := "a.html", content := some "p-4 mx-auto" },
      { name := "b.html", content := some "mx-auto w-full" }] [1, 0] (by decide)⟩

/-- C4: generate either returns a complete stylesheet or fails with
exactly one of ConfigError or ScanError; no other outcome exists, and a
failing run carries no stylesheet. -/
theorem c4_error_taxonomy (cfg : Config) (files : List SourceFile) :
    (∃ css, generate cfg files = .ok css) ∨
    (∃ msg, generate cfg files = .error (GenError.configError msg)) ∨
    (∃ f, generate cfg files = .error (GenError.scanError f)) := by
  cases h : generate cfg files with
  | ok css => exact Or.inl ⟨css, rfl⟩
  | error e =>
    cases e with
    | configError msg => exact Or.inr (Or.inl ⟨msg, rfl⟩)
    | scanError f => exact Or.inr (Or.inr ⟨f, rfl⟩)

/-- C5: a candidate whose variant-prefix list contains a name not
registered in the Plugin Host resolves to none: no unvarianted rule and
no fatal error. -/
theorem c5_unknown_variant (host : Host) (reg : Registry) (cand v : String)
    (hmem : v ∈ variantNames cand) (hunk : variantFor host v = none) :
    resolveCandidate host reg cand = none := by
  unfold resolveCandidate
  cases hb : baseToken cand with
  | none => rfl
  | some base =>
    rw [optionMapAll_eq_none (variantFor host) (variantNames cand) v hmem hunk]

/-- Witness for C5 at the unknown prefix of nope:p-4 under the
repository host: the candidate yields no rule. -/
theorem c5_unknown_variant_witness :
    ("nope" ∈ variantNames "nope:p-4") ∧
    variantFor (buildHost repoConfig) "nope" = none ∧
    resolveCandidate (buildHost repoConfig) (buildRegistry repoConfig) "nope:p-4" = none :=
  ⟨by decide, by decide,
   c5_unknown_variant (buildHost repoConfig) (buildRegistry repoConfig)
     "nope:p-4" "nope" (by decide) (by decide)⟩

/-- C6: a token with unbalanced arbitrary-value brackets is rejected by
the scanner (it never appears in the scan result), while every balanced
token of the same file is kept exactly when it occurs in the raw token
stream (other tokens are unaffected; scanning itself never fails). -/
theorem c6_unbalanced_brackets (text tok : String)
    (h : balancedBrackets tok = false) :
    tok ∉ scanFile text ∧
    (∀ t : String, balancedBrackets t = true →
      (t ∈ scanFile text ↔ t ∈ rawTokens text)) := by
  constructor
  · intro hmem
    have h2 := (List.mem_filter.mp hmem).2
    rw [h] at h2
    cases h2
  · intro t ht
    constructor
    · intro hm
      exact (List.mem_filter.mp hm).1
    · intro hm
      exact List.mem_filter.mpr ⟨hm, ht⟩

/-- Witness for C6: in a file containing w-[100px (missing closing
bracket) the bad token is dropped and p-4 is scanned unaffected. -/
theorem c6_unbalanced_brackets_witness :
    balancedBrackets "w-[100px" = false ∧
    "w-[100px" ∉ scanFile "<div class=\"w-[100px p-4\">" ∧
    ("p-4" ∈ scanFile "<div class=\"w-[100px p-4\">" ↔
      "p-4" ∈ rawTokens "<div class=\"w-[100px p-4\">") :=
  ⟨by decide,
   (c6_unbalanced_brackets "<div class=\"w-[100px p-4\">" "w-[100px" (by decide)).1,
   (c6_unbalanced_brackets "<div class=\"w-[100px p-4\">" "w-[100px" (by decide)).2
     "p-4" (by decide)⟩

/-- A stub plugin registering one generator for the stub utility name. -/
def stubPluginA (g : UtilityDef) : Plugin :=
  { name := "stub-a", utils := [("stub-util", g)], vars := [] }

/-- A second stub plugin registering the same utility name. -/
def stubPluginB (g : UtilityDef) : Plugin :=
  { name := "stub-b", utils := [("stub-util", g)], vars := [] }

/-- C7: when two plugins in the configured ordered list register the
same utility name, the later plugin's generator is the one looked up and
invoked for candidates of that name, and the override is recorded as the
sole non-fatal event rather than a failure. -/
theorem c7_last_plugin_wins (g1 g2 : UtilityDef) (reg : Registry) :
    generatorFor (initHost [stubPluginA g1, stubPluginB g2]) "stub-util" = some g2 ∧
    (initHost [stubPluginA g1, stubPluginB g2]).events =
      [HostEvent.overrideEvent "stub-b" "stub-util"] ∧
    resolveCandidate (initHost [stubPluginA g1, stubPluginB g2]) reg "stub-util" =
      (g2.gen reg none false).map (mkUtilityRule "stub-util") := by
  refine ⟨rfl, rfl, ?_⟩
  cases hg : g2.gen reg none false with
  | none =>
    show (match g2.gen reg none false with
      | none => none
      | some decls =>
        applyVariantList reg [] (mkUtilityRule "stub-util" decls)) = _
    rw [hg]
    rfl
  | some decls =>
    show (match g2.gen reg none false with
      | none => none
      | some decls =>
        applyVariantList reg [] (mkUtilityRule "stub-util" decls)) = _
    rw [hg]
    rfl

/-- C8: the registry is the per-(category, key) deep merge of the
default scale with the user theme: a direct user value always wins, an
extend value wins over the default, and a category key given by neither
keeps its default (extend merges rather than replaces); the repository
theme sets container directly and leaves extend empty. -/
theorem c8_theme_deep_merge (th : Theme) (cat key v dv : String) :
    (themeLookup th.tables cat key = some v → themeResolve th cat key = some v) ∧
    (themeLookup th.tables cat key = none →
      themeLookup th.extend cat key = some v → themeResolve th cat key = some v) ∧
    (themeLookup th.tables cat key = none → themeLookup th.extend cat key = none →
      themeLookup defaultTheme cat key = some dv → themeResolve th cat key = some dv) ∧
    repoTheme.extend = [] ∧
    themeLookup repoTheme.tables "container" "center" = some "true" := by
  refine ⟨?_, ?_, ?_, rfl, rfl⟩
  · intro h
    simp [themeResolve, h]
  · intro h1 h2
    simp [themeResolve, h1, h2]
  · intro h1 h2 h3
    simp [themeResolve, h1, h2, h3]

/-- Witness for C8: under the repository theme the directly-overridden
container.center token resolves to true while the untouched spacing
scale keeps its default. -/
theorem c8_theme_deep_merge_witness :
    themeResolve repoTheme "container" "center" = some "true" ∧
    themeResolve repoTheme "spacing" "4" = some "1rem" :=
  ⟨(c8_theme_deep_merge repoTheme "container" "center" "true" "false").1 (by decide),
   (c8_theme_deep_merge repoTheme "spacing" "4" "1rem" "1rem").2.2.1
     (by decide) (by decide) (by decide)⟩

/-- C9: the repository configuration passes validation, so a run over it
never aborts with ConfigError; any failure is a ScanError. -/
theorem c9_no_config_error (files : List SourceFile) (e : GenError)
    (h : generate repoConfig files = .error e) : ∃ f, e = GenError.scanError f := by
  unfold generate at h
  have hv : validateConfig repoConfig = .ok () := rfl
  rw [hv] at h
  cases hr : readAll files with
  | error e' =>
    rw [hr] at h
    exact readAll_only_scan_errors files e (by rw [hr, Except.error.inj h])
  | ok texts =>
    rw [hr] at h
    cases h

/-- Witness for C9: an unreadable file makes the run fail, and the
failure is a ScanError, never a ConfigError. -/
theorem c9_no_config_error_witness :
    ∃ f, GenError.scanError "missing.html" = GenError.scanError f :=
  c9_no_config_error [{ name := "missing.html", content := none }]
    (GenError.scanError "missing.html") rfl

/-- C10: the repository configuration lists exactly one plugin, and host
initialization over it emits no override event. -/
theorem c10_single_plugin_no_override :
    repoConfig.plugins.length = 1 ∧ (buildHost repoConfig).events = [] :=
  ⟨rfl, rfl⟩

end TwEngine
